import Mathlib

/-!
Verification of `bumpalo_thin_slice` (files `src/lib.rs`, `src/thin_slice.rs`,
`src/thin_slice_mut.rs`) against its natural-language specification.

The development shallowly embeds the crate:

* The layout engine (`core::alloc::Layout` as used by `ThinSlice::new` and
  the `data` helper) is translated to arithmetic over `Nat`, for a 64-bit
  platform (`usize` is 8 bytes / 8 aligned, the maximum object size is
  `isize::MAX`).  `Layout::array`, `Layout::extend`, `Layout::from_size_align`
  and `padding_needed_for` follow the standard library sources; fallible
  operations return `Option`, with `none` standing for the `LayoutError`
  (which the crate turns into a panic via `expect`).
* The bump arena is a list of allocations; each allocation stores the header
  word (the length written by `ThinSlice::new`) and the element data written
  by the initialization closure.  Allocation never fails (the arena is an
  external collaborator assumed to always grow, per the spec's scope).
* Addresses are allocation identities (`Nat`).  The two `static EMPTY`
  items — one inside `ThinSlice::default`, one inside `ThinSliceMut::default`
  — are distinct Rust statics of nonzero size, hence occupy distinct
  addresses; they are modelled as the fixed addresses `0` and `1`.  A `static`
  inside a generic Rust function is shared across all monomorphizations, so
  each of these addresses is independent of the element type.  Arena
  allocations get the addresses `2, 3, ...` in allocation order.
* Initialization closures are explicit state transformers
  `σ → Option (σ × α)`; `none` models a panic inside the closure (used by
  `alloc_thin_slice_fill_iter`, whose closure calls
  `iter.next().expect(..)`).
-/

namespace BumpaloThinSlice

variable {α β : Type} {σ τ : Type} {H : Type}

/-- `usize::MAX` on a 64-bit platform. -/
def USIZE_MAX : Nat := 2 ^ 64 - 1

/-- `isize::MAX` on a 64-bit platform: the maximum size of a Rust object. -/
def ISIZE_MAX : Nat := 2 ^ 63 - 1

/-- `core::alloc::Layout`: a size in bytes and an alignment. -/
structure Layout where
  size : Nat
  align : Nat
deriving DecidableEq

/-- `usize::is_power_of_two`, by the bit trick `n != 0 && n & (n - 1) == 0`. -/
def isPow2 (n : Nat) : Bool :=
  n != 0 && n &&& (n - 1) == 0

/-- `Layout::max_size_for_align`: `isize::MAX - (align - 1)`. -/
def Layout.maxSizeForAlign (align : Nat) : Nat := ISIZE_MAX - (align - 1)

/-- `usize::checked_add`. -/
def checkedAdd (a b : Nat) : Option Nat :=
  if a + b ≤ USIZE_MAX then some (a + b) else none

/-- `Layout::from_size_align`: requires a power-of-two alignment and
`size ≤ isize::MAX - (align - 1)`. -/
def Layout.fromSizeAlign (size align : Nat) : Option Layout :=
  if isPow2 align && decide (size ≤ Layout.maxSizeForAlign align) then
    some ⟨size, align⟩
  else
    none

/-- `Layout::padding_needed_for`: round `size` up to a multiple of `a` and
subtract `size`.  The source computes the rounded value with wrapping
add/sub and a mask `!(a - 1)`; for a power-of-two `a` and layouts in range
(`size ≤ isize::MAX`, `a ≤ 2^63`) no wrap occurs and masking is exactly
rounding down, so it agrees with this arithmetic form. -/
def Layout.paddingNeededFor (l : Layout) (a : Nat) : Nat :=
  (l.size + a - 1) / a * a - l.size

/-- `Layout::extend`: append `next` to `l` with padding, returning the
combined layout and the byte offset at which `next` begins. -/
def Layout.extend (l next : Layout) : Option (Layout × Nat) :=
  let newAlign := max l.align next.align
  let pad := l.paddingNeededFor next.align
  match checkedAdd l.size pad with
  | none => none
  | some offset =>
    match checkedAdd offset next.size with
    | none => none
    | some newSize =>
      match Layout.fromSizeAlign newSize newAlign with
      | none => none
      | some layout => some (layout, offset)

/-- `Layout::array::<T>(n)` for an element type of size `elemSize` and
alignment `elemAlign`: rejects `n` when `elemSize * n` would exceed
`max_size_for_align(elemAlign)` (checked by division, as in the source). -/
def Layout.array (elemSize elemAlign n : Nat) : Option Layout :=
  if elemSize ≠ 0 ∧ Layout.maxSizeForAlign elemAlign / elemSize < n then
    none
  else
    some ⟨elemSize * n, elemAlign⟩

/-- `Layout::new::<Header>()` where `Header = usize` (8 bytes, align 8). -/
def headerLayout : Layout := ⟨8, 8⟩

/-- The offset computed by the `data` helper in `lib.rs`:
`Layout::new::<Header>().extend(Layout::new::<T>()).unwrap().1`.
The `unwrap` is modelled by `Option`. -/
def dataOffset (elemSize elemAlign : Nat) : Option Nat :=
  match headerLayout.extend ⟨elemSize, elemAlign⟩ with
  | none => none
  | some (_, offset) => some offset

/-- The layout block inside `ThinSlice::new` / `ThinSliceMut::new`:
`Layout::new::<Header>().extend(Layout::array::<T>(len).expect(..)).expect(..).0`.
`none` models the `expect` panics. -/
def thinSliceAllocLayout (elemSize elemAlign len : Nat) : Option Layout :=
  match Layout.array elemSize elemAlign len with
  | none => none
  | some arrayLayout =>
    match headerLayout.extend arrayLayout with
    | none => none
    | some (layout, _) => some layout

/-- One arena allocation: the header word written by `ptr::write(header, len)`
and the element data written by the initialization closure. -/
structure Alloc (α : Type) where
  hdr : Nat
  data : List α
deriving DecidableEq

/-- The `bumpalo::Bump` arena, abstracted to the allocations it has handed
out, in order.  Its internal chunking is out of scope per the spec. -/
structure Bump (α : Type) where
  heap : List (Alloc α)
deriving DecidableEq

/-- Number of statically allocated headers preceding arena addresses. -/
def numStatics : Nat := 2

/-- Address of the `static EMPTY: Header = 0` inside `ThinSlice::default`. -/
def EMPTY_THIN_SLICE : Nat := 0

/-- Address of the `static EMPTY: Header = 0` inside `ThinSliceMut::default`.
A distinct Rust `static` item from the one in `ThinSlice::default`, hence a
distinct address. -/
def EMPTY_THIN_SLICE_MUT : Nat := 1

/-- `ThinSlice<'bump, T>`: a single header pointer. -/
structure ThinSlice where
  header : Nat
deriving DecidableEq

/-- `ThinSliceMut<'a, T>`: a single header pointer. -/
structure ThinSliceMut where
  header : Nat
deriving DecidableEq

/-- `ThinSlice::default()`: points at its `static EMPTY`. -/
def ThinSlice.default : ThinSlice := ⟨EMPTY_THIN_SLICE⟩

/-- `ThinSliceMut::default()`: points at its own `static EMPTY`. -/
def ThinSliceMut.default : ThinSliceMut := ⟨EMPTY_THIN_SLICE_MUT⟩

/-- Reading the header word (`len(header)` in `lib.rs`).  Both statics hold
`0`; arena address `numStatics + i` reads allocation `i`. -/
def Bump.readHdr (m : Bump α) (addr : Nat) : Nat :=
  if addr < numStatics then 0
  else (m.heap.getD (addr - numStatics) ⟨0, []⟩).hdr

/-- Reading the data region following a header (`data(header)` in `lib.rs`).
The statics are bare headers with no data. -/
def Bump.readData (m : Bump α) (addr : Nat) : List α :=
  if addr < numStatics then []
  else (m.heap.getD (addr - numStatics) ⟨0, []⟩).data

/-- Address the next arena allocation will receive. -/
def Bump.allocAddr (m : Bump α) : Nat := numStatics + m.heap.length

/-- `bump.alloc_layout(..)` followed by the header write: append a fresh
allocation holding header `len` and data `xs`. -/
def Bump.push (m : Bump α) (len : Nat) (xs : List α) : Bump α :=
  ⟨m.heap ++ [⟨len, xs⟩]⟩

/-- `ThinSlice::as_slice`: `slice::from_raw_parts(data(header), len(header))` —
the first `len(header)` elements of the data region. -/
def ThinSlice.as_slice (m : Bump α) (s : ThinSlice) : List α :=
  (m.readData s.header).take (m.readHdr s.header)

/-- `ThinSliceMut::as_slice`, identical to `ThinSlice::as_slice`. -/
def ThinSliceMut.as_slice (m : Bump α) (s : ThinSliceMut) : List α :=
  (m.readData s.header).take (m.readHdr s.header)

/-- Run an initialization loop `for i in is { write(dst.add(i), f(i)) }`,
threading the closure state `σ`; `none` propagates a panic in `f`.  The
produced list is the data written, in slot order. -/
def runLoop (f : σ → Nat → Option (σ × α)) : σ → List Nat → Option (σ × List α)
  | s, [] => some (s, [])
  | s, i :: is =>
    match f s i with
    | none => none
    | some (s', a) =>
      match runLoop f s' is with
      | none => none
      | some (s'', rest) => some (s'', a :: rest)

/-- `ThinSlice::new(bump, len, init)`: if `len == 0` return
`ThinSlice::default()` (no allocation, `init` not invoked); otherwise compute
the layout (panicking on overflow), allocate, write the header, and run
`init` against the data region. -/
def ThinSlice.new (elemSize elemAlign : Nat) (m : Bump α) (len : Nat)
    (init : σ → Option (σ × List α)) (s : σ) :
    Option (Bump α × ThinSlice × σ) :=
  if len = 0 then
    some (m, ThinSlice.default, s)
  else
    match thinSliceAllocLayout elemSize elemAlign len with
    | none => none
    | some _ =>
      match init s with
      | none => none
      | some (s', written) => some (m.push len written, ⟨m.allocAddr⟩, s')

/-- `ThinSliceMut::new`, textually identical to `ThinSlice::new` except for
the handle type (and its own `default`). -/
def ThinSliceMut.new (elemSize elemAlign : Nat) (m : Bump α) (len : Nat)
    (init : σ → Option (σ × List α)) (s : σ) :
    Option (Bump α × ThinSliceMut × σ) :=
  if len = 0 then
    some (m, ThinSliceMut.default, s)
  else
    match thinSliceAllocLayout elemSize elemAlign len with
    | none => none
    | some _ =>
      match init s with
      | some (s', written) => some (m.push len written, ⟨m.allocAddr⟩, s')
      | none => none

/-- `ThinSlice::from_fn(bump, len, f)`: `new` with the loop
`for i in 0..len { ptr::write(dst.add(i), f(i)) }`.  `f` is an `FnMut`
closure, modelled with explicit state; `none` from `f` is a panic inside the
loop. -/
def ThinSlice.from_fn (elemSize elemAlign : Nat) (m : Bump α) (len : Nat)
    (f : σ → Nat → Option (σ × α)) (s : σ) :
    Option (Bump α × ThinSlice × σ) :=
  ThinSlice.new elemSize elemAlign m len
    (fun s0 => runLoop f s0 (List.range len)) s

/-- `ThinSliceMut::from_fn`, textually identical to `ThinSlice::from_fn`. -/
def ThinSliceMut.from_fn (elemSize elemAlign : Nat) (m : Bump α) (len : Nat)
    (f : σ → Nat → Option (σ × α)) (s : σ) :
    Option (Bump α × ThinSliceMut × σ) :=
  ThinSliceMut.new elemSize elemAlign m len
    (fun s0 => runLoop f s0 (List.range len)) s

/-- Drop the (stateless or discarded) closure state from a constructor
result, matching the Rust signatures that return only the handle. -/
def dropState : Option (Bump α × ThinSlice × σ) → Option (Bump α × ThinSlice)
  | none => none
  | some (m, h, _) => some (m, h)

/-- `ThinSlice::new_clone(bump, src)`: `new` with the loop
`for (i, val) in src.iter().cloned().enumerate() { ptr::write(dst.add(i), val) }`,
which writes `clone(src[i])` into slot `i`, in order — i.e. the data written
is `src.map cloneFn`.  `cloneFn` is the `T: Clone` implementation. -/
def ThinSlice.new_clone (elemSize elemAlign : Nat) (cloneFn : α → α)
    (m : Bump α) (src : List α) : Option (Bump α × ThinSlice) :=
  dropState (ThinSlice.new elemSize elemAlign m src.length
    (fun (u : Unit) => some (u, src.map cloneFn)) ())

/-- `ThinSlice::new_copy(bump, src)`: `new` with
`ptr::copy_nonoverlapping(src.as_ptr(), dst, src.len())` — the data written
is `src` itself. -/
def ThinSlice.new_copy (elemSize elemAlign : Nat) (m : Bump α)
    (src : List α) : Option (Bump α × ThinSlice) :=
  dropState (ThinSlice.new elemSize elemAlign m src.length
    (fun (u : Unit) => some (u, src)) ())

/-- `ThinSliceMut::new_clone`, textually identical to
`ThinSlice::new_clone`. -/
def ThinSliceMut.new_clone (elemSize elemAlign : Nat) (cloneFn : α → α)
    (m : Bump α) (src : List α) : Option (Bump α × ThinSliceMut × Unit) :=
  ThinSliceMut.new elemSize elemAlign m src.length
    (fun (u : Unit) => some (u, src.map cloneFn)) ()

/-- `ThinSliceMut::new_copy`, textually identical to `ThinSlice::new_copy`. -/
def ThinSliceMut.new_copy (elemSize elemAlign : Nat) (m : Bump α)
    (src : List α) : Option (Bump α × ThinSliceMut × Unit) :=
  ThinSliceMut.new elemSize elemAlign m src.length
    (fun (u : Unit) => some (u, src)) ()

/-- `ThinSlice::<MaybeUninit<T>>::new_uninit(bump, len)`: `new` with a no-op
closure.  `MaybeUninit<T>` is modelled as `Option α` with `none` for an
uninitialized slot, so the untouched data region holds `len` uninitialized
slots. -/
def ThinSlice.new_uninit (elemSize elemAlign : Nat) (m : Bump (Option α))
    (len : Nat) : Option (Bump (Option α) × ThinSlice) :=
  dropState (ThinSlice.new elemSize elemAlign m len
    (fun (u : Unit) => some (u, List.replicate len (none : Option α))) ())

/-- A value implementing `ExactSizeIterator`: the elements it will yield and
the length its `len()` method reports (a non-conforming iterator may report
a length different from the number of elements it yields). -/
structure ExactIter (α : Type) where
  items : List α
  reportedLen : Nat
deriving DecidableEq

/-- `Iterator::next`: pop the first remaining element, `none` when
exhausted. -/
def ExactIter.next (it : ExactIter α) : Option (ExactIter α × α) :=
  match it.items with
  | [] => none
  | a :: rest => some (⟨rest, it.reportedLen⟩, a)

/-- The closure `|_| iter.next().expect("Iterator supplied to few elements")`
passed to `from_fn` by `alloc_thin_slice_fill_iter`; `none` (iterator
exhausted) becomes the `expect` panic. -/
def fillIterStep (it : ExactIter α) (_i : Nat) : Option (ExactIter α × α) :=
  it.next

/-- `Bump::alloc_thin_slice_clone`: delegates to `ThinSlice::new_clone`. -/
def Bump.alloc_thin_slice_clone (elemSize elemAlign : Nat) (cloneFn : α → α)
    (m : Bump α) (src : List α) : Option (Bump α × ThinSlice) :=
  ThinSlice.new_clone elemSize elemAlign cloneFn m src

/-- `Bump::alloc_thin_slice_copy`: delegates to `ThinSlice::new_copy`. -/
def Bump.alloc_thin_slice_copy (elemSize elemAlign : Nat) (m : Bump α)
    (src : List α) : Option (Bump α × ThinSlice) :=
  ThinSlice.new_copy elemSize elemAlign m src

/-- `Bump::alloc_thin_slice_fill_clone(len, value)`:
`ThinSlice::from_fn(self, len, |_| value.clone())`. -/
def Bump.alloc_thin_slice_fill_clone (elemSize elemAlign : Nat)
    (cloneFn : α → α) (m : Bump α) (len : Nat) (value : α) :
    Option (Bump α × ThinSlice) :=
  dropState (ThinSlice.from_fn elemSize elemAlign m len
    (fun (u : Unit) _ => some (u, cloneFn value)) ())

/-- `Bump::alloc_thin_slice_fill_copy(len, value)`:
`ThinSlice::from_fn(self, len, |_| value)`. -/
def Bump.alloc_thin_slice_fill_copy (elemSize elemAlign : Nat) (m : Bump α)
    (len : Nat) (value : α) : Option (Bump α × ThinSlice) :=
  dropState (ThinSlice.from_fn elemSize elemAlign m len
    (fun (u : Unit) _ => some (u, value)) ())

/-- `Bump::alloc_thin_slice_fill_default(len)`:
`ThinSlice::from_fn(self, len, |_| T::default())`, with `defaultVal` the
`T: Default` implementation. -/
def Bump.alloc_thin_slice_fill_default (elemSize elemAlign : Nat)
    (defaultVal : α) (m : Bump α) (len : Nat) :
    Option (Bump α × ThinSlice) :=
  dropState (ThinSlice.from_fn elemSize elemAlign m len
    (fun (u : Unit) _ => some (u, defaultVal)) ())

/-- `Bump::alloc_thin_slice_fill_iter(iter)`:
`let mut iter = iter.into_iter();`
`ThinSlice::from_fn(self, iter.len(), |_| iter.next().expect(..))`. -/
def Bump.alloc_thin_slice_fill_iter (elemSize elemAlign : Nat) (m : Bump α)
    (it : ExactIter α) : Option (Bump α × ThinSlice) :=
  dropState (ThinSlice.from_fn elemSize elemAlign m it.reportedLen
    fillIterStep it)

/-- `Bump::alloc_thin_slice_fill_with(len, f)`: delegates to
`ThinSlice::from_fn`. -/
def Bump.alloc_thin_slice_fill_with (elemSize elemAlign : Nat) (m : Bump α)
    (len : Nat) (f : σ → Nat → Option (σ × α)) (s : σ) :
    Option (Bump α × ThinSlice × σ) :=
  ThinSlice.from_fn elemSize elemAlign m len f s

/-- `<[T] as PartialEq>::eq` with element comparison `e`: equal lengths and
pointwise `e`. -/
def sliceEq (e : α → α → Bool) : List α → List α → Bool
  | [], [] => true
  | x :: xs, y :: ys => e x y && sliceEq e xs ys
  | _, _ => false

/-- `impl PartialEq for ThinSlice`: `self.as_slice() == other.as_slice()`. -/
def ThinSlice.eqBy (e : α → α → Bool) (m : Bump α) (a b : ThinSlice) : Bool :=
  sliceEq e (ThinSlice.as_slice m a) (ThinSlice.as_slice m b)

/-- `<[T] as Hash>::hash`: feed the length, then each element in order, to
the hasher (`H` is the hasher state, `writeLen`/`writeElem` its update
functions). -/
def hashSlice (writeLen : H → Nat → H) (writeElem : H → α → H) (st : H)
    (xs : List α) : H :=
  xs.foldl writeElem (writeLen st xs.length)

/-- `impl Hash for ThinSlice`: `self.as_slice().hash(state)`. -/
def ThinSlice.hashBy (writeLen : H → Nat → H) (writeElem : H → α → H)
    (m : Bump α) (s : ThinSlice) (st : H) : H :=
  hashSlice writeLen writeElem st (ThinSlice.as_slice m s)

/-! ## Helper lemmas about the memory model -/

theorem getD_concat_self (l : List β) (a d : β) :
    (l ++ [a]).getD l.length d = a := by
  induction l with
  | nil => rfl
  | cons x xs ih => simpa using ih

theorem getD_append_lt (l l' : List β) (n : Nat) (d : β) (h : n < l.length) :
    (l ++ l').getD n d = l.getD n d := by
  induction l generalizing n with
  | nil => simp at h
  | cons x xs ih =>
    cases n with
    | zero => rfl
    | succ k => simpa using ih k (by simpa using h)

theorem readHdr_push_new (m : Bump α) (len : Nat) (xs : List α) :
    (m.push len xs).readHdr m.allocAddr = len := by
  unfold Bump.readHdr Bump.push Bump.allocAddr numStatics
  rw [if_neg (by omega)]
  simpa using congrArg Alloc.hdr (getD_concat_self m.heap ⟨len, xs⟩ ⟨0, []⟩)

theorem readData_push_new (m : Bump α) (len : Nat) (xs : List α) :
    (m.push len xs).readData m.allocAddr = xs := by
  unfold Bump.readData Bump.push Bump.allocAddr numStatics
  rw [if_neg (by omega)]
  simpa using congrArg Alloc.data (getD_concat_self m.heap ⟨len, xs⟩ ⟨0, []⟩)

theorem readHdr_push_old (m : Bump α) (len a : Nat) (xs : List α)
    (h : a < m.allocAddr) : (m.push len xs).readHdr a = m.readHdr a := by
  unfold Bump.readHdr Bump.push
  by_cases h2 : a < numStatics
  · rw [if_pos h2, if_pos h2]
  · rw [if_neg h2, if_neg h2, getD_append_lt]
    unfold Bump.allocAddr numStatics at h
    unfold numStatics at h2 ⊢
    omega

theorem readData_push_old (m : Bump α) (len a : Nat) (xs : List α)
    (h : a < m.allocAddr) : (m.push len xs).readData a = m.readData a := by
  unfold Bump.readData Bump.push
  by_cases h2 : a < numStatics
  · rw [if_pos h2, if_pos h2]
  · rw [if_neg h2, if_neg h2, getD_append_lt]
    unfold Bump.allocAddr numStatics at h
    unfold numStatics at h2 ⊢
    omega

theorem as_slice_default (m : Bump α) :
    ThinSlice.as_slice m ThinSlice.default = [] := rfl

theorem as_slice_push_new (m : Bump α) (len : Nat) (xs : List α) :
    ThinSlice.as_slice (m.push len xs) ⟨m.allocAddr⟩ = xs.take len := by
  unfold ThinSlice.as_slice
  rw [show (ThinSlice.mk m.allocAddr).header = m.allocAddr from rfl,
    readHdr_push_new, readData_push_new]

theorem as_slice_push_old (m : Bump α) (len : Nat) (xs : List α)
    (hdl : ThinSlice) (h : hdl.header < m.allocAddr) :
    ThinSlice.as_slice (m.push len xs) hdl = ThinSlice.as_slice m hdl := by
  unfold ThinSlice.as_slice
  rw [readHdr_push_old m len hdl.header xs h,
    readData_push_old m len hdl.header xs h]

theorem runLoop_map (g : Nat → α) (tr is : List Nat) :
    runLoop (fun (calls : List Nat) i => some (calls ++ [i], g i)) tr is =
      some (tr ++ is, is.map g) := by
  induction is generalizing tr with
  | nil => simp [runLoop]
  | cons i is ih => simp [runLoop, ih]

theorem runLoop_iter (it : ExactIter α) (is : List Nat) :
    runLoop fillIterStep it is =
      if is.length ≤ it.items.length then
        some (⟨it.items.drop is.length, it.reportedLen⟩,
          it.items.take is.length)
      else none := by
  induction is generalizing it with
  | nil => simp [runLoop]
  | cons i is ih =>
    cases hitems : it.items with
    | nil => simp [runLoop, fillIterStep, ExactIter.next, hitems]
    | cons a rest =>
      by_cases hc : is.length ≤ rest.length
      · simp [runLoop, fillIterStep, ExactIter.next, hitems, ih, hc,
          Nat.succ_le_succ hc]
      · simp [runLoop, fillIterStep, ExactIter.next, hitems, ih, hc,
          show ¬(is.length + 1 ≤ rest.length + 1) by omega]

theorem sliceEq_refl (e : α → α → Bool) (h : ∀ x, e x x = true)
    (xs : List α) : sliceEq e xs xs = true := by
  induction xs with
  | nil => rfl
  | cons x xs ih => simp [sliceEq, h, ih]

theorem map_id_of (f : α → α) (h : ∀ x, f x = x) (l : List α) :
    l.map f = l := by
  induction l with
  | nil => rfl
  | cons x xs ih => simp [h, ih]

theorem new_run (elemSize elemAlign : Nat) (m : Bump α) (len : Nat)
    (init : σ → Option (σ × List α)) (s s' : σ) (xs : List α)
    (hlen : len ≠ 0)
    (hl : (thinSliceAllocLayout elemSize elemAlign len).isSome = true)
    (hinit : init s = some (s', xs)) :
    ThinSlice.new elemSize elemAlign m len init s =
      some (m.push len xs, ⟨m.allocAddr⟩, s') := by
  unfold ThinSlice.new
  obtain ⟨l, hsome⟩ := Option.isSome_iff_exists.mp hl
  rw [if_neg hlen, hsome, hinit]

theorem array_eq_some (elemSize elemAlign n : Nat) (l : Layout) :
    Layout.array elemSize elemAlign n = some l ↔
      ¬(elemSize ≠ 0 ∧ Layout.maxSizeForAlign elemAlign / elemSize < n) ∧
      l = ⟨elemSize * n, elemAlign⟩ := by
  unfold Layout.array
  split_ifs with h
  · simp [h]
  · simp [h, eq_comm]

theorem extend_eq_some (l next : Layout) (res : Layout × Nat) :
    Layout.extend l next = some res ↔
      l.size + l.paddingNeededFor next.align ≤ USIZE_MAX ∧
      l.size + l.paddingNeededFor next.align + next.size ≤ USIZE_MAX ∧
      isPow2 (max l.align next.align) = true ∧
      l.size + l.paddingNeededFor next.align + next.size ≤
        Layout.maxSizeForAlign (max l.align next.align) ∧
      res = (⟨l.size + l.paddingNeededFor next.align + next.size,
              max l.align next.align⟩,
             l.size + l.paddingNeededFor next.align) := by
  unfold Layout.extend checkedAdd Layout.fromSizeAlign
  by_cases c1 : l.size + l.paddingNeededFor next.align ≤ USIZE_MAX
  · by_cases c2 :
        l.size + l.paddingNeededFor next.align + next.size ≤ USIZE_MAX
    · by_cases c3 : isPow2 (max l.align next.align) = true
      · by_cases c4 :
            l.size + l.paddingNeededFor next.align + next.size ≤
              Layout.maxSizeForAlign (max l.align next.align)
        · simp [c1, c2, c3, c4, eq_comm]
        · simp [c1, c2, c3, c4]
      · simp [c1, c2, c3]
    · simp [c1, c2]
  · simp [c1]

theorem thinSliceAllocLayout_some (elemSize elemAlign len : Nat) (l : Layout)
    (h : thinSliceAllocLayout elemSize elemAlign len = some l) :
    l = ⟨headerLayout.size + headerLayout.paddingNeededFor elemAlign +
          elemSize * len,
         max headerLayout.align elemAlign⟩ ∧
    l.size ≤ Layout.maxSizeForAlign (max headerLayout.align elemAlign) := by
  unfold thinSliceAllocLayout at h
  split at h
  · exact Option.noConfusion h
  next arr harr =>
    split at h
    · exact Option.noConfusion h
    next lay off hext =>
      simp only [Option.some.injEq] at h
      obtain ⟨hguard, harr2⟩ := (array_eq_some _ _ _ _).mp harr
      subst harr2
      obtain ⟨e1, e2, e3, e4, e5⟩ := (extend_eq_some _ _ _).mp hext
      simp only [Prod.mk.injEq] at e5
      rw [← h, e5.1]
      exact ⟨rfl, by simpa using e4⟩

theorem new_fail (elemSize elemAlign : Nat) (m : Bump α) (len : Nat)
    (init : σ → Option (σ × List α)) (s : σ) (hlen : len ≠ 0)
    (hinit : init s = none) :
    ThinSlice.new elemSize elemAlign m len init s = none := by
  unfold ThinSlice.new
  rw [if_neg hlen]
  cases hly : thinSliceAllocLayout elemSize elemAlign len with
  | none => rfl
  | some l => rw [hinit]

theorem push_allocAddr_lt (m : Bump α) (len : Nat) (xs : List α) :
    m.allocAddr < (m.push len xs).allocAddr := by
  unfold Bump.allocAddr Bump.push
  simp

/-! ## Claim theorems -/

/-- C5: for every element layout and length whose element-array byte size
combined with the header (including alignment padding) exceeds the
platform's maximum object size `isize::MAX`, the layout computation inside
`ThinSlice::new` fails (`none`, i.e. the `expect` panics) rather than
allocating; and whenever it succeeds, the computed size is exactly the
header size plus padding plus `elemSize * len` — no wrap-around or
undersized region — and is at most `isize::MAX`. -/
theorem layout_overflow_rejected (elemSize elemAlign len : Nat) :
    (ISIZE_MAX < headerLayout.size + headerLayout.paddingNeededFor elemAlign +
        elemSize * len →
      thinSliceAllocLayout elemSize elemAlign len = none) ∧
    (∀ l, thinSliceAllocLayout elemSize elemAlign len = some l →
      l.size = headerLayout.size + headerLayout.paddingNeededFor elemAlign +
        elemSize * len ∧
      l.size ≤ ISIZE_MAX) := by
  have hmax : Layout.maxSizeForAlign (max headerLayout.align elemAlign) ≤
      ISIZE_MAX := by
    unfold Layout.maxSizeForAlign
    exact Nat.sub_le _ _
  constructor
  · intro hover
    cases hth : thinSliceAllocLayout elemSize elemAlign len with
    | none => rfl
    | some l =>
      obtain ⟨hl, hbound⟩ := thinSliceAllocLayout_some _ _ _ _ hth
      rw [hl] at hbound
      simp only at hbound
      omega
  · intro l hth
    obtain ⟨hl, hbound⟩ := thinSliceAllocLayout_some _ _ _ _ hth
    subst hl
    simp only at hbound ⊢
    exact ⟨by trivial, le_trans hbound hmax⟩

/-- C6: the byte offset to the first element computed by the `data` function
(header layout extended with a single element's layout) is independent of
the requested length: for every `len ≥ 1`, whenever `ThinSlice::new`'s
layout computation succeeds with data-start offset `off`, the `data`
function's offset is defined and equals that same `off`. -/
theorem data_offset_length_independent (elemSize elemAlign len : Nat)
    (arr l : Layout) (off : Nat) (hlen : 1 ≤ len)
    (harr : Layout.array elemSize elemAlign len = some arr)
    (hext : headerLayout.extend arr = some (l, off)) :
    dataOffset elemSize elemAlign = some off := by
  obtain ⟨hguard, harr2⟩ := (array_eq_some _ _ _ _).mp harr
  subst harr2
  obtain ⟨e1, e2, e3, e4, e5⟩ := (extend_eq_some _ _ _).mp hext
  simp only at e1 e2 e3 e4 e5
  simp only [Prod.mk.injEq] at e5
  have hmul : elemSize ≤ elemSize * len := Nat.le_mul_of_pos_right _ hlen
  have hext1 : headerLayout.extend ⟨elemSize, elemAlign⟩ =
      some (⟨headerLayout.size + headerLayout.paddingNeededFor elemAlign +
               elemSize,
             max headerLayout.align elemAlign⟩,
            headerLayout.size + headerLayout.paddingNeededFor elemAlign) := by
    rw [extend_eq_some]
    simp only
    exact ⟨e1, by omega, e3, by omega, by trivial⟩
  unfold dataOffset
  rw [hext1]
  simp only [Option.some.injEq]
  omega

/-- C1 (counterexample): the claim says every zero-length handle of either
handle type points to the same single canonical empty-singleton address; but
`ThinSlice::default` and `ThinSliceMut::default` each contain their own
`static EMPTY: Header = 0` item, and distinct Rust statics of nonzero size
occupy distinct addresses, so `ThinSlice::default()` and
`ThinSliceMut::default()` hold different header pointers. -/
theorem empty_singletons_distinct :
    ThinSlice.default.header ≠ ThinSliceMut.default.header := by decide

/-- C1 (amended): every constructor invoked with length 0 — clone, copy, the
fill variants, the generator, the iterator (reported length 0), and the
uninitialized constructor — over any element type, closure and arena state,
returns a handle whose header pointer equals the canonical empty-singleton
address of its own handle type, without touching the arena; `ThinSlice` and
`ThinSliceMut` each have their own empty-singleton static.  (The element
type is the polymorphic `α`; the statics' addresses are constants
independent of it, since a `static` inside a generic Rust function is shared
by all monomorphizations.) -/
theorem empty_singleton_per_handle_type (elemSize elemAlign : Nat)
    (m : Bump α) (m2 : Bump (Option α)) (cloneFn : α → α)
    (value defaultVal : α) (xs : List α)
    (f : σ → Nat → Option (σ × α)) (s : σ)
    (g : τ → Option (τ × List α)) (t : τ) :
    ThinSlice.new elemSize elemAlign m 0 g t =
      some (m, ThinSlice.default, t) ∧
    ThinSlice.new_clone elemSize elemAlign cloneFn m [] =
      some (m, ThinSlice.default) ∧
    ThinSlice.new_copy elemSize elemAlign m [] =
      some (m, ThinSlice.default) ∧
    ThinSlice.from_fn elemSize elemAlign m 0 f s =
      some (m, ThinSlice.default, s) ∧
    ThinSlice.new_uninit elemSize elemAlign m2 0 =
      some (m2, ThinSlice.default) ∧
    Bump.alloc_thin_slice_clone elemSize elemAlign cloneFn m [] =
      some (m, ThinSlice.default) ∧
    Bump.alloc_thin_slice_copy elemSize elemAlign m [] =
      some (m, ThinSlice.default) ∧
    Bump.alloc_thin_slice_fill_clone elemSize elemAlign cloneFn m 0 value =
      some (m, ThinSlice.default) ∧
    Bump.alloc_thin_slice_fill_copy elemSize elemAlign m 0 value =
      some (m, ThinSlice.default) ∧
    Bump.alloc_thin_slice_fill_default elemSize elemAlign defaultVal m 0 =
      some (m, ThinSlice.default) ∧
    Bump.alloc_thin_slice_fill_iter elemSize elemAlign m ⟨xs, 0⟩ =
      some (m, ThinSlice.default) ∧
    Bump.alloc_thin_slice_fill_with elemSize elemAlign m 0 f s =
      some (m, ThinSlice.default, s) ∧
    ThinSliceMut.new elemSize elemAlign m 0 g t =
      some (m, ThinSliceMut.default, t) ∧
    ThinSliceMut.new_clone elemSize elemAlign cloneFn m [] =
      some (m, ThinSliceMut.default, ()) ∧
    ThinSliceMut.new_copy elemSize elemAlign m [] =
      some (m, ThinSliceMut.default, ()) ∧
    ThinSliceMut.from_fn elemSize elemAlign m 0 f s =
      some (m, ThinSliceMut.default, s) ∧
    ThinSlice.default.header = EMPTY_THIN_SLICE ∧
    ThinSliceMut.default.header = EMPTY_THIN_SLICE_MUT :=
  ⟨rfl, rfl, rfl, rfl, rfl, rfl, rfl, rfl, rfl, rfl, rfl, rfl, rfl, rfl,
   rfl, rfl, rfl, rfl⟩

/-- C8: the raw construction primitive (`ThinSlice::new`, and likewise
`ThinSliceMut::new`) called with `len == 0` returns the empty singleton
with the arena unchanged (no allocation) and the initialization state
untouched.  Since the equation holds for every initialization procedure —
including ones whose state would record an invocation — the caller-supplied
initializer is never invoked. -/
theorem new_zero_len_short_circuit (elemSize elemAlign : Nat) (m : Bump α)
    (f : σ → Option (σ × List α)) (s : σ)
    (g : τ → Option (τ × List α)) (t : τ) :
    ThinSlice.new elemSize elemAlign m 0 f s =
      some (m, ThinSlice.default, s) ∧
    ThinSliceMut.new elemSize elemAlign m 0 g t =
      some (m, ThinSliceMut.default, t) :=
  ⟨rfl, rfl⟩

/-- C3: for every source slice, `new_clone` produces a handle whose view is
the source with each element cloned in order (so it has the source's length
and element `i` is a clone of source element `i`), `new_copy` produces a
handle whose view equals the source, and — when `clone` returns its
argument, as the `Copy`/`Clone` contract requires for types admitting both
constructors — the two handles compare equal under the `PartialEq`
implementation (for any element comparison that is reflexive on the stored
values).  The `ThinSliceMut` versions of `new_clone`/`new_copy` in
`thin_slice_mut.rs` are textually identical to the `ThinSlice` ones
verified here. -/
theorem clone_copy_fidelity (elemSize elemAlign : Nat) (cloneFn : α → α)
    (e : α → α → Bool) (m : Bump α) (src : List α)
    (hl : src.length = 0 ∨
      (thinSliceAllocLayout elemSize elemAlign src.length).isSome = true) :
    ∃ m1 h1 m2 h2,
      ThinSlice.new_clone elemSize elemAlign cloneFn m src =
        some (m1, h1) ∧
      ThinSlice.new_copy elemSize elemAlign m1 src = some (m2, h2) ∧
      ThinSlice.as_slice m2 h1 = src.map cloneFn ∧
      ThinSlice.as_slice m2 h2 = src ∧
      ((∀ x, cloneFn x = x) → (∀ x, e x x = true) →
        ThinSlice.eqBy e m2 h1 h2 = true) := by
  by_cases h0 : src.length = 0
  · have hsrc : src = [] := List.length_eq_zero.mp h0
    subst hsrc
    exact ⟨m, ThinSlice.default, m, ThinSlice.default, rfl, rfl, rfl, rfl,
      fun _ _ => rfl⟩
  · have hls : (thinSliceAllocLayout elemSize elemAlign src.length).isSome =
        true := hl.resolve_left h0
    have hc : ThinSlice.new_clone elemSize elemAlign cloneFn m src =
        some (m.push src.length (src.map cloneFn), ⟨m.allocAddr⟩) := by
      unfold ThinSlice.new_clone
      rw [new_run elemSize elemAlign m src.length _ () ()
        (src.map cloneFn) h0 hls rfl]
      rfl
    have hcopy : ThinSlice.new_copy elemSize elemAlign
        (m.push src.length (src.map cloneFn)) src =
        some ((m.push src.length (src.map cloneFn)).push src.length src,
          ⟨(m.push src.length (src.map cloneFn)).allocAddr⟩) := by
      unfold ThinSlice.new_copy
      rw [new_run elemSize elemAlign _ src.length _ () () src h0 hls rfl]
      rfl
    have ha : ThinSlice.as_slice
        ((m.push src.length (src.map cloneFn)).push src.length src)
        ⟨m.allocAddr⟩ = src.map cloneFn := by
      rw [as_slice_push_old _ _ _ ⟨m.allocAddr⟩ (push_allocAddr_lt m _ _),
        as_slice_push_new]
      exact List.take_of_length_le (by simp)
    have hb : ThinSlice.as_slice
        ((m.push src.length (src.map cloneFn)).push src.length src)
        ⟨(m.push src.length (src.map cloneFn)).allocAddr⟩ = src := by
      rw [as_slice_push_new]
      exact List.take_of_length_le (by simp)
    refine ⟨m.push src.length (src.map cloneFn), ⟨m.allocAddr⟩,
      (m.push src.length (src.map cloneFn)).push src.length src,
      ⟨(m.push src.length (src.map cloneFn)).allocAddr⟩,
      hc, hcopy, ha, hb, ?_⟩
    intro hid hrefl
    unfold ThinSlice.eqBy
    rw [ha, hb, map_id_of cloneFn hid]
    exact sliceEq_refl e hrefl src

/-- C4: `from_fn` with length `len` and generator `g` produces a handle
whose view is `[g 0, g 1, ..., g (len-1)]` — element `i` equals `g i` for
every `i < len` — and the generator is called exactly once per index, in
increasing index order: instrumenting the `FnMut` closure state to record
each index it is called at, the recorded call sequence is exactly
`[0, 1, ..., len-1]`.  The `ThinSliceMut::from_fn` in `thin_slice_mut.rs`
is textually identical. -/
theorem from_fn_generator (elemSize elemAlign len : Nat) (g : Nat → α)
    (m : Bump α)
    (hl : len = 0 ∨
      (thinSliceAllocLayout elemSize elemAlign len).isSome = true) :
    ∃ m' h,
      ThinSlice.from_fn elemSize elemAlign m len
        (fun (calls : List Nat) i => some (calls ++ [i], g i)) [] =
        some (m', h, List.range len) ∧
      ThinSlice.as_slice m' h = (List.range len).map g := by
  by_cases h0 : len = 0
  · subst h0
    exact ⟨m, ThinSlice.default, rfl, rfl⟩
  · have hls := hl.resolve_left h0
    have hrun : runLoop (fun (calls : List Nat) i => some (calls ++ [i], g i))
        [] (List.range len) =
        some (List.range len, (List.range len).map g) := by
      simpa using runLoop_map g [] (List.range len)
    refine ⟨m.push len ((List.range len).map g), ⟨m.allocAddr⟩, ?_, ?_⟩
    · unfold ThinSlice.from_fn
      exact new_run _ _ _ _ _ _ _ _ h0 hls hrun
    · rw [as_slice_push_new]
      exact List.take_of_length_le (by simp)

/-- C2: `alloc_thin_slice_fill_iter` on an exact-size iterator that yields
fewer elements than its reported length fails — the `expect` inside the
fill closure panics, modelled as `none` — rather than returning a handle;
and on an iterator yielding at least its reported length (given the layout
computation succeeds, which the nonzero case needs), it returns a handle
whose view's length equals the reported length. -/
theorem fill_iter_exact_size (elemSize elemAlign : Nat) (m : Bump α)
    (it : ExactIter α) :
    (it.items.length < it.reportedLen →
      Bump.alloc_thin_slice_fill_iter elemSize elemAlign m it = none) ∧
    (it.reportedLen = 0 ∨
        (thinSliceAllocLayout elemSize elemAlign it.reportedLen).isSome =
          true →
      it.reportedLen ≤ it.items.length →
      ∃ m' h,
        Bump.alloc_thin_slice_fill_iter elemSize elemAlign m it =
          some (m', h) ∧
        (ThinSlice.as_slice m' h).length = it.reportedLen) := by
  obtain ⟨items, r⟩ := it
  simp only
  constructor
  · intro hshort
    have h0 : r ≠ 0 := by omega
    have hrun : runLoop fillIterStep (ExactIter.mk items r)
        (List.range r) = none := by
      rw [runLoop_iter, if_neg]
      simp only [List.length_range]
      omega
    unfold Bump.alloc_thin_slice_fill_iter ThinSlice.from_fn
    rw [new_fail _ _ _ _ _ _ h0 hrun]
    rfl
  · intro hl hle
    by_cases h0 : r = 0
    · subst h0
      exact ⟨m, ThinSlice.default, rfl, rfl⟩
    · have hls := hl.resolve_left h0
      have hrun : runLoop fillIterStep (ExactIter.mk items r)
          (List.range r) =
          some (⟨items.drop r, r⟩, items.take r) := by
        rw [runLoop_iter]
        simp [hle]
      refine ⟨m.push r (items.take r), ⟨m.allocAddr⟩, ?_, ?_⟩
      · unfold Bump.alloc_thin_slice_fill_iter ThinSlice.from_fn
        rw [new_run _ _ _ _ _ _ _ _ h0 hls hrun]
        rfl
      · rw [as_slice_push_new, List.take_take, Nat.min_self,
          List.length_take]
        omega

/-- C10: on an exact-size iterator able to yield at least (possibly more
than) its reported length, the `from_fn` call made by
`alloc_thin_slice_fill_iter` consumes exactly the reported number of
elements — the final iterator state still holds all surplus elements
(`items.drop reportedLen`) — and the resulting handle stores exactly the
first `reportedLen` yielded elements, so its length equals the reported
length and no surplus element is stored. -/
theorem fill_iter_consumes_exactly (elemSize elemAlign : Nat) (m : Bump α)
    (it : ExactIter α)
    (hle : it.reportedLen ≤ it.items.length)
    (hl : it.reportedLen = 0 ∨
      (thinSliceAllocLayout elemSize elemAlign it.reportedLen).isSome =
        true) :
    ∃ m' h,
      ThinSlice.from_fn elemSize elemAlign m it.reportedLen fillIterStep
        it = some (m', h, ⟨it.items.drop it.reportedLen, it.reportedLen⟩) ∧
      Bump.alloc_thin_slice_fill_iter elemSize elemAlign m it =
        some (m', h) ∧
      ThinSlice.as_slice m' h = it.items.take it.reportedLen ∧
      (ThinSlice.as_slice m' h).length = it.reportedLen := by
  obtain ⟨items, r⟩ := it
  simp only at hle hl ⊢
  by_cases h0 : r = 0
  · subst h0
    exact ⟨m, ThinSlice.default, rfl, rfl, rfl, rfl⟩
  · have hls := hl.resolve_left h0
    have hrun : runLoop fillIterStep (ExactIter.mk items r)
        (List.range r) = some (⟨items.drop r, r⟩, items.take r) := by
      rw [runLoop_iter]
      simp [hle]
    have hnew : ThinSlice.from_fn elemSize elemAlign m r fillIterStep
        (ExactIter.mk items r) =
        some (m.push r (items.take r), ⟨m.allocAddr⟩,
          ⟨items.drop r, r⟩) := by
      unfold ThinSlice.from_fn
      exact new_run _ _ _ _ _ _ _ _ h0 hls hrun
    have hslice : ThinSlice.as_slice (m.push r (items.take r))
        ⟨m.allocAddr⟩ = items.take r := by
      rw [as_slice_push_new, List.take_take, Nat.min_self]
    refine ⟨m.push r (items.take r), ⟨m.allocAddr⟩, hnew, ?_, hslice, ?_⟩
    · unfold Bump.alloc_thin_slice_fill_iter
      rw [hnew]
      rfl
    · rw [hslice, List.length_take]
      omega

/-- C7: for every two handles with equal length and pointwise-equal
elements — regardless of which constructor, arena, or allocation produced
them (the hypotheses constrain only the stored contents) — the `PartialEq`
implementation returns `true` for any element comparison that is reflexive,
and the `Hash` implementation produces identical digests for every hasher
(any hasher state type with any length/element update functions). -/
theorem content_eq_hash_agree (e : α → α → Bool) (m : Bump α)
    (a b : ThinSlice)
    (hrefl : ∀ x, e x x = true)
    (hlen : (ThinSlice.as_slice m a).length =
      (ThinSlice.as_slice m b).length)
    (helem : ∀ i, i < (ThinSlice.as_slice m a).length →
      (ThinSlice.as_slice m a)[i]? = (ThinSlice.as_slice m b)[i]?) :
    ThinSlice.eqBy e m a b = true ∧
    ∀ (W : Type) (writeLen : W → Nat → W) (writeElem : W → α → W) (st : W),
      ThinSlice.hashBy writeLen writeElem m a st =
        ThinSlice.hashBy writeLen writeElem m b st := by
  have hab : ThinSlice.as_slice m a = ThinSlice.as_slice m b := by
    apply List.ext_getElem?
    intro i
    by_cases hi : i < (ThinSlice.as_slice m a).length
    · exact helem i hi
    · rw [List.getElem?_eq_none (by omega), List.getElem?_eq_none (by omega)]
  refine ⟨?_, ?_⟩
  · unfold ThinSlice.eqBy
    rw [hab]
    exact sliceEq_refl e hrefl _
  · intro W writeLen writeElem st
    unfold ThinSlice.hashBy
    rw [hab]

/-! ## Witnesses: the claim theorems evaluated at concrete inputs -/

/-- Witness for C5: 2^63 one-byte elements overflow the maximum object
size, and the layout computation fails. -/
theorem layout_overflow_rejected_witness :
    ISIZE_MAX < headerLayout.size + headerLayout.paddingNeededFor 1 +
      1 * 2 ^ 63 ∧
    thinSliceAllocLayout 1 1 (2 ^ 63) = none :=
  ⟨by decide, (layout_overflow_rejected 1 1 (2 ^ 63)).1 (by decide)⟩

/-- Witness for C6: for 4-byte/4-aligned elements and length 10, the
allocation layout's data offset is 8, and so is the `data` function's. -/
theorem data_offset_length_independent_witness :
    (1 ≤ 10 ∧ Layout.array 4 4 10 = some ⟨40, 4⟩ ∧
      headerLayout.extend ⟨40, 4⟩ = some (⟨48, 8⟩, 8)) ∧
    dataOffset 4 4 = some 8 :=
  ⟨⟨by decide, by decide, by decide⟩,
   data_offset_length_independent 4 4 10 ⟨40, 4⟩ ⟨48, 8⟩ 8 (by decide)
     (by decide) (by decide)⟩

/-- Witness for C3: cloning and copying `[1, 2, 3, 4]` both yield handles
viewing `[1, 2, 3, 4]`, and the two handles compare equal. -/
theorem clone_copy_fidelity_witness :
    ∃ m1 h1 m2 h2,
      ThinSlice.new_clone 4 4 (fun x => x) (⟨[]⟩ : Bump Nat) [1, 2, 3, 4] =
        some (m1, h1) ∧
      ThinSlice.new_copy 4 4 m1 [1, 2, 3, 4] = some (m2, h2) ∧
      ThinSlice.as_slice m2 h1 = [1, 2, 3, 4] ∧
      ThinSlice.as_slice m2 h2 = [1, 2, 3, 4] ∧
      ThinSlice.eqBy (fun x y => x == y) m2 h1 h2 = true := by
  obtain ⟨m1, h1, m2, h2, hc, hk, ha, hb, he⟩ :=
    clone_copy_fidelity 4 4 (fun x => x) (fun x y => x == y)
      (⟨[]⟩ : Bump Nat) [1, 2, 3, 4] (by decide)
  exact ⟨m1, h1, m2, h2, hc, hk, ha, hb,
    he (fun _ => rfl) (fun x => by simp)⟩

/-- Witness for C4: `from_fn` with length 10 and the identity generator
yields the view `[0, 1, 2, 3, 4, 5, 6, 7, 8, 9]` and records exactly the
call sequence `[0, 1, ..., 9]`. -/
theorem from_fn_generator_witness :
    ∃ m' h,
      ThinSlice.from_fn 4 4 (⟨[]⟩ : Bump Nat) 10
        (fun (calls : List Nat) i => some (calls ++ [i], i)) [] =
        some (m', h, List.range 10) ∧
      ThinSlice.as_slice m' h = (List.range 10).map (fun i => i) :=
  from_fn_generator 4 4 10 (fun i => i) ⟨[]⟩ (by decide)

/-- Witness for C2: an iterator reporting length 5 but yielding only 3
elements makes the construction fail; one reporting 3 and yielding 3
succeeds with a handle of length 3. -/
theorem fill_iter_exact_size_witness :
    Bump.alloc_thin_slice_fill_iter 4 4 (⟨[]⟩ : Bump Nat)
      ⟨[1, 2, 3], 5⟩ = none ∧
    ∃ m' h,
      Bump.alloc_thin_slice_fill_iter 4 4 (⟨[]⟩ : Bump Nat)
        ⟨[1, 2, 3], 3⟩ = some (m', h) ∧
      (ThinSlice.as_slice m' h).length = 3 :=
  ⟨(fill_iter_exact_size 4 4 ⟨[]⟩ ⟨[1, 2, 3], 5⟩).1 (by decide),
   (fill_iter_exact_size 4 4 ⟨[]⟩ ⟨[1, 2, 3], 3⟩).2 (by decide) (by decide)⟩

/-- Witness for C10: an iterator reporting 3 but able to yield 5 elements
is drained of exactly 3; the surplus `[4, 5]` remains in the iterator and
the handle stores `[1, 2, 3]`. -/
theorem fill_iter_consumes_exactly_witness :
    3 ≤ ([1, 2, 3, 4, 5] : List Nat).length ∧
    ∃ m' h,
      ThinSlice.from_fn 4 4 (⟨[]⟩ : Bump Nat) 3 fillIterStep
        ⟨[1, 2, 3, 4, 5], 3⟩ = some (m', h, ⟨[4, 5], 3⟩) ∧
      Bump.alloc_thin_slice_fill_iter 4 4 (⟨[]⟩ : Bump Nat)
        ⟨[1, 2, 3, 4, 5], 3⟩ = some (m', h) ∧
      ThinSlice.as_slice m' h = [1, 2, 3] ∧
      (ThinSlice.as_slice m' h).length = 3 :=
  ⟨by decide, fill_iter_consumes_exactly 4 4 ⟨[]⟩ ⟨[1, 2, 3, 4, 5], 3⟩
    (by decide) (by decide)⟩

/-- Witness for C7: two distinct allocations both holding `[1, 2, 3]`
compare equal and hash identically (with a concrete list-accumulating
hasher). -/
theorem content_eq_hash_agree_witness :
    ThinSlice.eqBy (fun x y : Nat => x == y)
      ⟨[⟨3, [1, 2, 3]⟩, ⟨3, [1, 2, 3]⟩]⟩ ⟨2⟩ ⟨3⟩ = true ∧
    ThinSlice.hashBy (fun (st : List Nat) n => n :: st)
      (fun st x => x :: st) ⟨[⟨3, [1, 2, 3]⟩, ⟨3, [1, 2, 3]⟩]⟩ ⟨2⟩ [] =
    ThinSlice.hashBy (fun (st : List Nat) n => n :: st)
      (fun st x => x :: st) ⟨[⟨3, [1, 2, 3]⟩, ⟨3, [1, 2, 3]⟩]⟩ ⟨3⟩ [] := by
  have h := content_eq_hash_agree (fun x y : Nat => x == y)
    ⟨[⟨3, [1, 2, 3]⟩, ⟨3, [1, 2, 3]⟩]⟩ ⟨2⟩ ⟨3⟩ (fun x => by simp)
    (by decide) (by decide)
  exact ⟨h.1, h.2 (List Nat) _ _ []⟩

end BumpaloThinSlice
